import Mathlib

/-!
Verification development for the ChromeExtension-Vite-Core repository: a
shallow embedding of the cross-browser compatibility layer
(`src/utils/browser.ts`), the Chrome identity shim
(`src/utils/identity/util.ts`) and the clean-copy-URL action pipeline,
together with theorems about the spec's testable properties.

Browser/vendor environments (presence of APIs, last-error reports,
callback payloads) are modelled as explicit structures passed to the
embedded functions; promise resolution/rejection is modelled as an
explicit outcome value, and side effects (cookie writes, local-storage
updates, vendor calls, console output) as explicit components of the
result.
-/

namespace ChromeExt

/-! ### A model of the platform URL parser

`cleanCopyUrl` lives in `src/logic/cleanCopyUrl.ts`, which is not among
the sources (only its test file is). Per the spec it parses its input
with the platform URL parser and reassembles `origin + pathname`. The
parser below models the relevant fragment of WHATWG URL parsing:
`scheme://host[:port][/path][?query][#fragment]`, where the scheme is a
nonempty run of ASCII letters, the authority runs until the first `/`,
`?` or `#`, the pathname defaults to `/`, the query runs from `?` to the
first `#`, and the fragment is everything after the first `#`.
(Case normalisation, userinfo stripping and percent-decoding are not
modelled; no claim depends on them.) -/

/-- Characters terminating the authority component. -/
def authStop (c : Char) : Bool := c = '/' || c = '?' || c = '#'

/-- Characters terminating the pathname component. -/
def qfStop (c : Char) : Bool := c = '?' || c = '#'

/-- Characters terminating the query component. -/
def hashStop (c : Char) : Bool := c = '#'

/-- Split a character list at the first character satisfying `p`:
returns the prefix of characters not satisfying `p` and the remainder
(beginning with the first `p`-character, if any). -/
def splitUntil (p : Char → Bool) : List Char → List Char × List Char
  | [] => ([], [])
  | c :: rest =>
    if p c then ([], c :: rest)
    else
      let q := splitUntil p rest
      (c :: q.1, q.2)

/-- Split off a URL scheme: a run of ASCII letters followed by the
literal `://`. Returns the scheme and the remainder after `://`, or
`none` when the input has no such shape. -/
def splitScheme : List Char → Option (List Char × List Char)
  | [] => none
  | c :: rest =>
    if c = ':' then
      match rest with
      | '/' :: '/' :: r => some ([], r)
      | _ => none
    else if c.isAlpha then
      match splitScheme rest with
      | some q => some (c :: q.1, q.2)
      | none => none
    else none

/-- The components of a parsed URL. -/
structure UrlParts where
  scheme : List Char
  host : List Char
  pathname : List Char
  search : Option (List Char)
  hash : Option (List Char)
deriving Repr, DecidableEq

/-- Parse everything after the authority into pathname, query and
fragment. The input is empty or starts with `/`, `?` or `#`. -/
def parseTail (rest : List Char) : List Char × Option (List Char) × Option (List Char) :=
  let pr : List Char × List Char :=
    match rest with
    | '/' :: r =>
      let q := splitUntil qfStop r
      ('/' :: q.1, q.2)
    | other => (['/'], other)
  match pr.2 with
  | '?' :: r2 =>
    let q := splitUntil hashStop r2
    match q.2 with
    | '#' :: f => (pr.1, some q.1, some f)
    | _ => (pr.1, some q.1, none)
  | '#' :: f => (pr.1, none, some f)
  | _ => (pr.1, none, none)

/-- The URL parser model: scheme, then authority up to `/`, `?` or `#`,
then pathname/query/fragment. Fails on an empty scheme or empty host. -/
def parseUrlChars (l : List Char) : Option UrlParts :=
  match splitScheme l with
  | none => none
  | some (scheme, rest) =>
    if scheme = [] then none
    else
      let a := splitUntil authStop rest
      if a.1 = [] then none
      else
        let t := parseTail a.2
        some ⟨scheme, a.1, t.1, t.2.1, t.2.2⟩

/-- The origin of a parsed URL: `scheme://host`. -/
def UrlParts.origin (u : UrlParts) : List Char :=
  u.scheme ++ ':' :: '/' :: '/' :: u.host

/-- Modelled from the spec: `cleanCopyUrl` (from `src/logic/cleanCopyUrl`,
absent from the sources; only its test file is present) "parses the input
as a URL, returns `origin + pathname` (dropping query and fragment); on
parse failure, returns an empty string". The test file confirms the
empty-string fallback. -/
def cleanCopyUrl (s : String) : String :=
  match parseUrlChars s.data with
  | some u => String.mk (u.origin ++ u.pathname)
  | none => ""

/-- Assemble a URL string from components, with optional query and
fragment (as the spec example `https://example.com/path?foo=bar#hash`). -/
def assembleUrl (scheme host path : List Char)
    (query frag : Option (List Char)) : List Char :=
  scheme ++ ':' :: '/' :: '/' :: host ++ '/' :: path
    ++ (match query with | some q => '?' :: q | none => [])
    ++ (match frag with | some f => '#' :: f | none => [])

/-- Unfolding lemma: `(String.mk l).data = l`. -/
theorem mk_data (l : List Char) : (String.mk l).data = l := rfl

/-- Splitting lemma: `splitUntil` recovers an append whose first part avoids `p` and whose
second part is empty or starts with a `p`-character. -/
theorem splitUntil_append (p : Char → Bool) (a b : List Char)
    (ha : ∀ c ∈ a, p c = false)
    (hb : b = [] ∨ ∃ c t, b = c :: t ∧ p c = true) :
    splitUntil p (a ++ b) = (a, b) := by
  induction a with
  | nil =>
    simp only [List.nil_append]
    rcases hb with h | ⟨c, t, rfl, hc⟩
    · subst h; rfl
    · simp [splitUntil, hc]
  | cons c a ih =>
    have hc : p c = false := ha c (List.mem_cons_self _ _)
    have ih2 := ih (fun x hx => ha x (List.mem_cons_of_mem _ hx))
    simp [splitUntil, hc, ih2]

/-- Splitting lemma: `splitScheme` recovers an all-letter scheme followed by `://`. -/
theorem splitScheme_append (s r : List Char)
    (hs : ∀ c ∈ s, c.isAlpha = true) :
    splitScheme (s ++ ':' :: '/' :: '/' :: r) = some (s, r) := by
  induction s with
  | nil => rfl
  | cons c s ih =>
    have hca : c.isAlpha = true := hs c (List.mem_cons_self _ _)
    have hcne : ¬(c = ':') := by
      intro h
      subst h
      exact absurd hca (by decide)
    have ih2 := ih (fun x hx => hs x (List.mem_cons_of_mem _ hx))
    simp [splitScheme, hcne, hca, ih2]

/-- Round trip: parsing an assembled URL recovers its components. -/
theorem parse_assembleUrl (scheme host path : List Char)
    (query frag : Option (List Char))
    (hs0 : scheme ≠ []) (hs : ∀ c ∈ scheme, c.isAlpha = true)
    (hh0 : host ≠ []) (hh : ∀ c ∈ host, authStop c = false)
    (hp : ∀ c ∈ path, qfStop c = false)
    (hq : ∀ c ∈ query.getD [], hashStop c = false) :
    parseUrlChars (assembleUrl scheme host path query frag)
      = some ⟨scheme, host, '/' :: path, query, frag⟩ := by
  cases query with
  | none =>
    cases frag with
    | none =>
      have e1 : assembleUrl scheme host path none none
          = scheme ++ ':' :: '/' :: '/' :: (host ++ '/' :: path) := by
        simp [assembleUrl]
      have h2 := splitUntil_append authStop host ('/' :: path) hh
        (Or.inr ⟨_, _, rfl, by decide⟩)
      have h3 : splitUntil qfStop path = (path, []) := by
        simpa using splitUntil_append qfStop path [] hp (Or.inl rfl)
      simp [parseUrlChars, e1, splitScheme_append _ _ hs, h2, parseTail,
        h3, hs0, hh0]
    | some f =>
      have e1 : assembleUrl scheme host path none (some f)
          = scheme ++ ':' :: '/' :: '/' :: (host ++ '/' :: (path ++ '#' :: f)) := by
        simp [assembleUrl]
      have h2 := splitUntil_append authStop host ('/' :: (path ++ '#' :: f)) hh
        (Or.inr ⟨_, _, rfl, by decide⟩)
      have h3 := splitUntil_append qfStop path ('#' :: f) hp
        (Or.inr ⟨_, _, rfl, by decide⟩)
      simp [parseUrlChars, e1, splitScheme_append _ _ hs, h2, parseTail,
        h3, hs0, hh0]
  | some q =>
    cases frag with
    | none =>
      have e1 : assembleUrl scheme host path (some q) none
          = scheme ++ ':' :: '/' :: '/' :: (host ++ '/' :: (path ++ '?' :: q)) := by
        simp [assembleUrl]
      have h2 := splitUntil_append authStop host ('/' :: (path ++ '?' :: q)) hh
        (Or.inr ⟨_, _, rfl, by decide⟩)
      have h3 := splitUntil_append qfStop path ('?' :: q) hp
        (Or.inr ⟨_, _, rfl, by decide⟩)
      have h4 : splitUntil hashStop q = (q, []) := by
        simpa using splitUntil_append hashStop q [] hq (Or.inl rfl)
      simp [parseUrlChars, e1, splitScheme_append _ _ hs, h2, parseTail,
        h3, h4, hs0, hh0]
    | some f =>
      have e1 : assembleUrl scheme host path (some q) (some f)
          = scheme ++ ':' :: '/' :: '/' ::
              (host ++ '/' :: (path ++ '?' :: (q ++ '#' :: f))) := by
        simp [assembleUrl]
      have h2 := splitUntil_append authStop host
        ('/' :: (path ++ '?' :: (q ++ '#' :: f))) hh
        (Or.inr ⟨_, _, rfl, by decide⟩)
      have h3 := splitUntil_append qfStop path ('?' :: (q ++ '#' :: f)) hp
        (Or.inr ⟨_, _, rfl, by decide⟩)
      have h4 := splitUntil_append hashStop q ('#' :: f) hq
        (Or.inr ⟨_, _, rfl, by decide⟩)
      simp [parseUrlChars, e1, splitScheme_append _ _ hs, h2, parseTail,
        h3, h4, hs0, hh0]

end ChromeExt

namespace ChromeExt

/-- C1: for every input string that parses as a URL and contains a query
and/or fragment, `cleanCopyUrl` returns exactly the URL's origin
concatenated with its pathname, dropping the query and the fragment. -/
theorem cleanCopyUrl_drops_query_and_fragment
    (scheme host path : List Char) (query frag : Option (List Char))
    (hs0 : scheme ≠ []) (hs : ∀ c ∈ scheme, c.isAlpha = true)
    (hh0 : host ≠ []) (hh : ∀ c ∈ host, authStop c = false)
    (hp : ∀ c ∈ path, qfStop c = false)
    (hq : ∀ c ∈ query.getD [], hashStop c = false)
    (_hqf : query.isSome = true ∨ frag.isSome = true) :
    cleanCopyUrl (String.mk (assembleUrl scheme host path query frag))
      = String.mk (scheme ++ ':' :: '/' :: '/' :: host ++ '/' :: path) := by
  have h := parse_assembleUrl scheme host path query frag hs0 hs hh0 hh hp hq
  simp [cleanCopyUrl, mk_data, h, UrlParts.origin]

/-- Witness for C1 at the spec's example
`https://example.com/path?foo=bar#hash`. -/
theorem cleanCopyUrl_drops_query_and_fragment_witness :
    cleanCopyUrl (String.mk (assembleUrl "https".data "example.com".data
        "path".data (some "foo=bar".data) (some "hash".data)))
      = String.mk ("https".data ++ ':' :: '/' :: '/' :: "example.com".data
          ++ '/' :: "path".data) :=
  cleanCopyUrl_drops_query_and_fragment _ _ _ _ _ (by decide) (by decide)
    (by decide) (by decide) (by decide) (by decide) (Or.inl (by decide))

/-- C2: for every input string that does not parse as a URL,
`cleanCopyUrl` returns the empty string. -/
theorem cleanCopyUrl_invalid (s : String)
    (h : parseUrlChars s.data = none) : cleanCopyUrl s = "" := by
  simp [cleanCopyUrl, h]

/-- Witness for C2 at the test suite's invalid input `"not a url"`. -/
theorem cleanCopyUrl_invalid_witness :
    parseUrlChars "not a url".data = none ∧ cleanCopyUrl "not a url" = "" :=
  ⟨by decide, cleanCopyUrl_invalid _ (by decide)⟩

/-! ### The vendor detector (`browser.is` / `browser.getBrowserName`,
`src/utils/browser.ts` lines 366-394) -/

/-- The environment signals read by the detector: the user-agent string
and the truthiness of the vendor-specific `navigator.brave` global. -/
structure Navigator where
  userAgent : List Char
  brave : Bool
deriving Repr, DecidableEq

/-- Whether `needle` occurs as a contiguous substring of `hay` (the model of a
substring-literal regular-expression test such as `/Chrome/.test(ua)`). -/
def hasSubstr (needle : List Char) : List Char → Bool
  | [] => List.isPrefixOf needle []
  | c :: rest => List.isPrefixOf needle (c :: rest) || hasSubstr needle rest

/-- Model of `browser.is.chrome()`: the user agent matches `Chrome`, does not
match `Edg` or `OPR`, and `navigator.brave` is absent. -/
def isChrome (nav : Navigator) : Bool :=
  hasSubstr "Chrome".data nav.userAgent
    && !(hasSubstr "Edg".data nav.userAgent
          || hasSubstr "OPR".data nav.userAgent)
    && !nav.brave

/-- Model of `browser.is.brave()`: `!!navigator.brave`. -/
def isBrave (nav : Navigator) : Bool := nav.brave

/-- Model of `browser.is.edge()`: the user agent matches `Edg`. -/
def isEdge (nav : Navigator) : Bool := hasSubstr "Edg".data nav.userAgent

/-- Model of `browser.is.opera()`: the user agent matches `OPR`. -/
def isOpera (nav : Navigator) : Bool := hasSubstr "OPR".data nav.userAgent

/-- Model of `browser.getBrowserName()`: Brave, then Edge, then Opera, then
Chrome, else Unknown. -/
def getBrowserName (nav : Navigator) : String :=
  if isBrave nav then "Brave"
  else if isEdge nav then "Edge"
  else if isOpera nav then "Opera"
  else if isChrome nav then "Chrome"
  else "Unknown"

/-- C3: `getBrowserName` returns exactly one of the five names, and an
Edge- or Opera-matching user agent is never classified as Chrome. -/
theorem getBrowserName_spec (nav : Navigator) :
    (getBrowserName nav = "Chrome" ∨ getBrowserName nav = "Brave"
      ∨ getBrowserName nav = "Edge" ∨ getBrowserName nav = "Opera"
      ∨ getBrowserName nav = "Unknown")
    ∧ (isEdge nav = true ∨ isOpera nav = true →
        getBrowserName nav ≠ "Chrome") := by
  constructor
  · unfold getBrowserName
    split
    · exact Or.inr (Or.inl rfl)
    · split
      · exact Or.inr (Or.inr (Or.inl rfl))
      · split
        · exact Or.inr (Or.inr (Or.inr (Or.inl rfl)))
        · split
          · exact Or.inl rfl
          · exact Or.inr (Or.inr (Or.inr (Or.inr rfl)))
  · intro h
    unfold getBrowserName
    rcases h with h | h
    · simp only [h]
      split <;> simp_all [isChrome, isEdge]
    · simp only [h]
      split <;> [skip; split] <;> simp_all [isChrome, isOpera]

/-- Witness for C3: a user agent containing both `Chrome` and `Edg`
(with no `brave` global) is classified `Edge`, not `Chrome`. -/
theorem getBrowserName_spec_witness :
    getBrowserName ⟨"Mozilla Chrome Edg".data, false⟩ ≠ "Chrome" :=
  (getBrowserName_spec ⟨"Mozilla Chrome Edg".data, false⟩).2
    (Or.inl (by decide))

/-! ### The identity shim (`ChromeIdentityApi`,
`src/utils/identity/util.ts`)

Promise settlement is modelled by `POutcome`; the vendor callback
payloads (`chrome.runtime.lastError`, cookie values, tokens) are fields
of explicit environment structures. JavaScript string truthiness
(`undefined` and `""` are falsy) is modelled by `strTruthy`. Local
storage is an association list of key/value pairs. -/

/-- Settlement of a promise. -/
inductive POutcome where
  | resolved (value : String)
  | rejected (msg : String)
deriving Repr, DecidableEq

/-- JavaScript truthiness of an optional string: `undefined` and the
empty string are falsy. -/
def strTruthy : Option String → Bool
  | some t => !(t == "")
  | none => false

/-- Local storage / cookie-jar model: an association list. -/
def lsGet (s : List (String × String)) (k : String) : Option String :=
  (s.find? (fun kv => kv.1 == k)).map (fun kv => kv.2)

/-- Model of `localStorage.setItem`. -/
def lsSet (s : List (String × String)) (k v : String) :
    List (String × String) :=
  (k, v) :: s.filter (fun kv => !(kv.1 == k))

/-- Model of `localStorage.removeItem`. -/
def lsRemove (s : List (String × String)) (k : String) :
    List (String × String) :=
  s.filter (fun kv => !(kv.1 == k))

/-- Vendor responses observed by one `tokenCookie` call. -/
structure CookieEnv where
  /-- `chrome.runtime.lastError` as reported in the callback. -/
  lastError : Option String
  /-- the `authToken` cookie's value, when the cookie exists. -/
  getCookie : Option String
  /-- the cookie value echoed back by `chrome.cookies.set`. -/
  setResult : Option String
deriving Repr, DecidableEq

/-- The observable effect of one `tokenCookie` call: how the promise
settles, which cookie name was read, and which cookie (name, value) was
written. -/
structure TokenCookieEffect where
  result : POutcome
  readName : Option String
  write : Option (String × String)
deriving Repr, DecidableEq

/-- Model of `ChromeIdentityApi.tokenCookie(operation, token?)`: `get` reads the
cookie named `authToken` and resolves its value (or `""`), `set` with a
truthy token writes the cookie named `authToken`; both reject on a
reported last-error; anything else rejects without touching cookies. -/
def tokenCookie (env : CookieEnv) (operation : String)
    (token : Option String) : TokenCookieEffect :=
  if operation = "get" then
    { result :=
        match env.lastError with
        | some e => .rejected e
        | none => .resolved (env.getCookie.getD "")
      readName := some "authToken"
      write := none }
  else if operation = "set" && strTruthy token then
    { result :=
        match env.lastError with
        | some e => .rejected e
        | none => .resolved (env.setResult.getD "")
      readName := none
      write := some ("authToken", token.getD "") }
  else
    { result := .rejected "Invalid operation or missing token for set operation"
      readName := none
      write := none }

/-- C4: `tokenCookie("set", ·)` with a missing or empty token rejects;
a cookie write happens only for `set` with a truthy token; every cookie
read or written is named `authToken`. -/
theorem tokenCookie_spec (env : CookieEnv) (operation : String)
    (token : Option String) :
    (strTruthy token = false →
      (tokenCookie env "set" token).result
        = .rejected "Invalid operation or missing token for set operation")
    ∧ (∀ w, (tokenCookie env operation token).write = some w →
        operation = "set" ∧ strTruthy token = true ∧ w.1 = "authToken")
    ∧ (∀ n, (tokenCookie env operation token).readName = some n →
        n = "authToken") := by
  refine ⟨fun ht => ?_, fun w hw => ?_, fun n hn => ?_⟩
  · simp [tokenCookie, ht]
  · by_cases hg : operation = "get"
    · simp [tokenCookie, hg] at hw
    · by_cases hs : operation = "set" ∧ strTruthy token = true
      · refine ⟨hs.1, hs.2, ?_⟩
        simp [tokenCookie, hg, hs.1, hs.2] at hw
        simp [← hw]
      · exfalso
        rcases Decidable.not_and_iff_or_not.mp hs with h | h
        · simp [tokenCookie, hg, h] at hw
        · have : strTruthy token = false := by
            cases hx : strTruthy token
            · rfl
            · exact absurd hx h
          simp [tokenCookie, hg, this] at hw
  · by_cases hg : operation = "get"
    · simp [tokenCookie, hg] at hn
      exact hn.symm
    · simp only [tokenCookie, hg, if_false, ite_false] at hn
      split at hn <;> simp_all

/-- Witness for C4: `set` with an empty token rejects; a concrete `set`
with token `tok` writes cookie `authToken`; a concrete `get` reads
cookie `authToken`. -/
theorem tokenCookie_spec_witness :
    (tokenCookie ⟨none, none, none⟩ "set" (some "")).result
        = .rejected "Invalid operation or missing token for set operation"
    ∧ ("set" = "set" ∧ strTruthy (some "tok") = true
        ∧ ("authToken", "tok").1 = "authToken")
    ∧ "authToken" = "authToken" :=
  ⟨(tokenCookie_spec ⟨none, none, none⟩ "set" (some "")).1 (by decide),
   (tokenCookie_spec ⟨none, none, some "tok"⟩ "set" (some "tok")).2.1
      ("authToken", "tok") (by decide),
   (tokenCookie_spec ⟨none, some "v", none⟩ "get" none).2.2
      "authToken" (by decide)⟩

/-- Removing a key from the association list makes its lookup fail. -/
theorem lsGet_lsRemove (s : List (String × String)) (k : String) :
    lsGet (lsRemove s k) k = none := by
  simp only [lsGet, lsRemove, Option.map_eq_none', List.find?_eq_none]
  intro kv hkv
  have h := List.of_mem_filter hkv
  simpa using h

/-- Setting a key makes its lookup return the new value. -/
theorem lsGet_lsSet (s : List (String × String)) (k v : String) :
    lsGet (lsSet s k v) k = some v := by
  simp [lsGet, lsSet, List.find?]

/-- Vendor responses observed by one `signOut` call: the last-error and
the token handed to the `getAuthToken` callback. -/
structure SignOutEnv where
  lastError : Option String
  token : Option String
deriving Repr, DecidableEq

/-- Model of `ChromeIdentityApi.signOut()`: calls `getAuthToken({interactive:
true})`; rejects on a reported last-error; otherwise resolves and, when
a (truthy) token was returned, removes the `authToken` entry from local
storage. -/
def signOut (env : SignOutEnv) (storage : List (String × String)) :
    POutcome × List (String × String) :=
  match env.lastError with
  | some e => (.rejected e, storage)
  | none =>
    (.resolved "",
     if strTruthy env.token then lsRemove storage "authToken" else storage)

/-- Counterexample to C5 as stated: when the vendor API reports an
error, `signOut`'s promise rejects — it does not always resolve. -/
theorem signOut_rejects_on_error :
    (signOut ⟨some "boom", none⟩ [("authToken", "t")]).1
      = POutcome.rejected "boom" := rfl

/-- C5 (amended): when the vendor API reports no error, `signOut`
resolves even if no token existed; when a token is returned it deletes
the persisted `authToken` entry, otherwise it leaves storage unchanged. -/
theorem signOut_spec (env : SignOutEnv) (storage : List (String × String))
    (h : env.lastError = none) :
    (signOut env storage).1 = .resolved ""
    ∧ (strTruthy env.token = true →
        (signOut env storage).2 = lsRemove storage "authToken"
        ∧ lsGet (signOut env storage).2 "authToken" = none)
    ∧ (strTruthy env.token = false → (signOut env storage).2 = storage) := by
  refine ⟨by simp [signOut, h], fun ht => ⟨?_, ?_⟩, fun ht => ?_⟩ <;>
    simp [signOut, h, ht, lsGet_lsRemove]

/-- Witness for C5 (amended): with no vendor error, `signOut` resolves
both with and without a token, and deletes the entry exactly when a
token was returned. -/
theorem signOut_spec_witness :
    ((signOut ⟨none, some "tok"⟩ [("authToken", "t")]).1 = .resolved ""
      ∧ lsGet (signOut ⟨none, some "tok"⟩ [("authToken", "t")]).2
          "authToken" = none)
    ∧ ((signOut ⟨none, none⟩ []).1 = .resolved ""
      ∧ (signOut ⟨none, none⟩ []).2 = []) :=
  ⟨⟨(signOut_spec ⟨none, some "tok"⟩ [("authToken", "t")] rfl).1,
    ((signOut_spec ⟨none, some "tok"⟩ [("authToken", "t")] rfl).2.1
      (by decide)).2⟩,
   ⟨(signOut_spec ⟨none, none⟩ [] rfl).1,
    (signOut_spec ⟨none, none⟩ [] rfl).2.2 (by decide)⟩⟩

/-! ### `signIn` and `extractToken` -/

/-- Split a query string on `&` into its pair segments (the model of
`URLSearchParams` pair splitting). -/
def splitOnAmp : List Char → List (List Char)
  | [] => [[]]
  | c :: rest =>
    if c = '&' then [] :: splitOnAmp rest
    else
      match splitOnAmp rest with
      | p :: ps => (c :: p) :: ps
      | [] => [[c]]

/-- The key of one `key=value` segment (everything before the first
`=`, or the whole segment when there is none). -/
def pairKey (p : List Char) : List Char :=
  (splitUntil (fun c => c = '=') p).1

/-- The value of one `key=value` segment (everything after the first
`=`, or empty when there is none). -/
def pairValue (p : List Char) : List Char :=
  match (splitUntil (fun c => c = '=') p).2 with
  | '=' :: v => v
  | _ => []

/-- Model of `URLSearchParams(query).get(key)`: the value of the first segment
whose key matches, or `null`. (Percent-decoding is not modelled.) -/
def searchParamsGet (key query : List Char) : Option (List Char) :=
  ((splitOnAmp query).find? (fun p => pairKey p == key)).map pairValue

/-- Model of `ChromeIdentityApi.extractToken(redirectUrl)`: `null` for a `null`
redirect URL; otherwise parse the URL and, when its fragment (`url.hash`)
is nonempty, read the `access_token` parameter from it, else `null`.
(The source would throw on an unparseable redirect URL — a case the
vendor never produces — which is modelled as `null`.) -/
def extractToken (redirectUrl : Option String) : Option String :=
  match redirectUrl with
  | none => none
  | some u =>
    match parseUrlChars u.data with
    | some parts =>
      match parts.hash with
      | some h =>
        if h = [] then none
        else (searchParamsGet "access_token".data h).map String.mk
      | none => none
    | none => none

/-- Vendor responses observed by one `signIn` call: the web-auth-flow
last-error and redirect URL, and the follow-up `getAuthToken` call's
last-error and token. -/
structure SignInEnv where
  flowLastError : Option String
  redirectUrl : Option String
  authLastError : Option String
  authTokenResponse : Option String
deriving Repr, DecidableEq

/-- Model of `ChromeIdentityApi.signIn(interactive)`: rejects on a web-auth-flow
last-error; otherwise extracts a token from the redirect URL and, when
none is extractable (or it is empty, hence falsy), rejects with
`Failed to extract token`; otherwise calls `getAuthToken({interactive:
false})`, rejecting on its last-error, else persisting
`tokenResponse.token || ""` under `authToken` and resolving. -/
def signIn (env : SignInEnv) (storage : List (String × String)) :
    POutcome × List (String × String) :=
  match env.flowLastError with
  | some e => (.rejected e, storage)
  | none =>
    if strTruthy (extractToken env.redirectUrl) then
      match env.authLastError with
      | some e => (.rejected e, storage)
      | none =>
        (.resolved "",
         lsSet storage "authToken" (env.authTokenResponse.getD ""))
    else (.rejected "Failed to extract token", storage)

/-- C6: `signIn` rejects on any vendor-reported error and when no access
token is extractable from the redirect URL's fragment; on success it
persists a token under `authToken` and resolves; `extractToken` yields
`null` for a `null` redirect URL and for a URL without a fragment. -/
theorem signIn_spec (env : SignInEnv) (storage : List (String × String)) :
    (∀ e, env.flowLastError = some e → (signIn env storage).1 = .rejected e)
    ∧ (env.flowLastError = none →
        strTruthy (extractToken env.redirectUrl) = false →
        (signIn env storage).1 = .rejected "Failed to extract token")
    ∧ (env.flowLastError = none →
        strTruthy (extractToken env.redirectUrl) = true →
        ∀ e, env.authLastError = some e →
          (signIn env storage).1 = .rejected e)
    ∧ (env.flowLastError = none → env.authLastError = none →
        strTruthy (extractToken env.redirectUrl) = true →
        (signIn env storage).1 = .resolved ""
        ∧ lsGet (signIn env storage).2 "authToken"
            = some (env.authTokenResponse.getD ""))
    ∧ extractToken none = none
    ∧ (∀ u parts, parseUrlChars u.data = some parts → parts.hash = none →
        extractToken (some u) = none) := by
  refine ⟨fun e he => ?_, fun h1 h2 => ?_, fun h1 h2 e he => ?_,
    fun h1 h2 h3 => ⟨?_, ?_⟩, rfl, fun u parts hp hh => ?_⟩
  · simp [signIn, he]
  · simp [signIn, h1, h2]
  · simp [signIn, h1, h2, he]
  · simp [signIn, h1, h2, h3]
  · simp [signIn, h1, h2, h3, lsGet_lsSet]
  · simp [extractToken, hp, hh]

/-- Witness for C6: a concrete flow error rejects; a fragment-free
redirect URL yields no token and rejects; a redirect URL carrying
`access_token=abc` in its fragment resolves and persists the
`getAuthToken` response under `authToken`. -/
theorem signIn_spec_witness :
    (signIn ⟨some "cancelled", none, none, none⟩ []).1
        = POutcome.rejected "cancelled"
    ∧ (signIn ⟨none, some "https://app.example/cb", none, none⟩ []).1
        = POutcome.rejected "Failed to extract token"
    ∧ ((signIn ⟨none, some "https://app.example/#access_token=abc",
          none, some "tok"⟩ []).1 = POutcome.resolved ""
        ∧ lsGet (signIn ⟨none, some "https://app.example/#access_token=abc",
            none, some "tok"⟩ []).2 "authToken" = some "tok")
    ∧ extractToken (some "https://app.example/cb") = none :=
  ⟨(signIn_spec ⟨some "cancelled", none, none, none⟩ []).1
      "cancelled" rfl,
   (signIn_spec ⟨none, some "https://app.example/cb", none, none⟩ []).2.1
      rfl (by decide),
   (signIn_spec ⟨none, some "https://app.example/#access_token=abc",
        none, some "tok"⟩ []).2.2.2.1 rfl rfl (by decide),
   (signIn_spec ⟨none, some "https://app.example/cb", none, none⟩
      []).2.2.2.2.2 "https://app.example/cb"
      ⟨"https".data, "app.example".data, "/cb".data, none, none⟩
      (by decide) rfl⟩

/-! ### The clean-copy-URL context-menu action -/

/-- The context passed to a context-menu action. -/
structure ActionCtx where
  tabId : Option Nat
  selection : Option String

/-- The page/injection environment one action invocation observes: the
`href` found by the DOM link search (if any) and whether script
injection fails. -/
structure ActionEnv where
  findLinkHref : Option String
  injectionFails : Bool

/-- The user-visible outcome of one action invocation. -/
inductive ActionOutcome where
  | copied (url : String)
  | notifiedNoUrl
  | notifiedError
deriving Repr, DecidableEq

/-- Modelled from the spec: the action pipeline of `cleanCopyUrlAction`
(`src/logic/cleanCopyUrl.ts`, absent from the sources). Clean the
selection; if nonempty, inject a clipboard write; otherwise search the
DOM for a link whose text matches the selection, clean and copy its
`href`, or notify `No valid URL found to copy.`; any injection failure
is caught and reported via an error notification. -/
def cleanCopyUrlActionRun (env : ActionEnv) (ctx : ActionCtx) :
    ActionOutcome :=
  let cleaned :=
    match ctx.selection with
    | some s => cleanCopyUrl s
    | none => ""
  if cleaned ≠ "" then
    if env.injectionFails then .notifiedError else .copied cleaned
  else if env.injectionFails then .notifiedError
  else
    match env.findLinkHref with
    | some href =>
      let c := cleanCopyUrl href
      if c ≠ "" then
        if env.injectionFails then .notifiedError else .copied c
      else .notifiedNoUrl
    | none => .notifiedNoUrl

/-- A context-menu action descriptor:
`{title, contexts, action}`. -/
structure ContextMenuAction where
  title : String
  contexts : List String
  action : ActionEnv → ActionCtx → ActionOutcome

/-- Modelled from the spec: `cleanCopyUrlAction()` returns the
stateless descriptor registered with the context menu; its title is
`Clean Copy URL` and its contexts are link, selection and page (the
test file asserts both). -/
def cleanCopyUrlAction : ContextMenuAction :=
  { title := "Clean Copy URL"
    contexts := ["link", "selection", "page"]
    action := cleanCopyUrlActionRun }

/-- C7: the descriptor's contexts are exactly
`["link", "selection", "page"]` in that order, its title is the string
`Clean Copy URL`, and its action field is the action pipeline
function. -/
theorem cleanCopyUrlAction_spec :
    cleanCopyUrlAction.contexts = ["link", "selection", "page"]
    ∧ cleanCopyUrlAction.title = "Clean Copy URL"
    ∧ cleanCopyUrlAction.action = cleanCopyUrlActionRun :=
  ⟨rfl, rfl, rfl⟩

/-! ### The sidePanel facade (`src/utils/browser.ts` lines 12-106)

Each operation is modelled as a function of the capability environment
returning a `CallTrace`: the vendor API calls performed, whether any
console output was produced, and whether the returned promise rejects
(throws). -/

/-- The capability environment read by the facade. -/
structure ChromeEnv where
  /-- `typeof chrome !== "undefined"`. -/
  chromeDefined : Bool
  /-- `chrome.sidePanel` present. -/
  sidePanelAvailable : Bool
  /-- `chrome.sidePanel.open` present. -/
  sidePanelOpenAvailable : Bool
  /-- `chrome.sidePanel.getOptions` present. -/
  sidePanelGetOptionsAvailable : Bool
  /-- `chrome.sidebarAction` present. -/
  sidebarActionAvailable : Bool
  /-- `chrome.sidebarAction.open` present. -/
  sidebarActionOpenAvailable : Bool
  /-- the awaited vendor call rejects. -/
  vendorFails : Bool
  /-- the options object returned by `chrome.sidePanel.getOptions`. -/
  getOptionsResult : String
deriving Repr, DecidableEq

/-- The observable effect of one facade call. -/
structure CallTrace where
  /-- vendor API calls performed, in order. -/
  calls : List String
  /-- whether anything was written to the console. -/
  logged : Bool
  /-- whether the returned promise rejects. -/
  threw : Bool
deriving Repr, DecidableEq

/-- Model of `sidePanel.setOptions(options)`: modern API first, then the legacy
`sidebarAction.setPanel` (only when a path is supplied), else a console
warning. Accessing `chrome` with `chrome` undefined throws. -/
def sidePanelSetOptions (env : ChromeEnv) (hasPath : Bool) : CallTrace :=
  if !env.chromeDefined then ⟨[], false, true⟩
  else if env.sidePanelAvailable then
    ⟨["sidePanel.setOptions"], false, env.vendorFails⟩
  else if env.sidebarActionAvailable then
    if hasPath then ⟨["sidebarAction.setPanel"], false, env.vendorFails⟩
    else ⟨[], false, false⟩
  else ⟨[], true, false⟩

/-- Model of `sidePanel.open(options)`: logs on entry on every path; with
`chrome` undefined it logs an error and returns; modern
`chrome.sidePanel.open` is tried first (a failure is logged and
rethrown), then legacy `chrome.sidebarAction.open`, else a console
warning. -/
def sidePanelOpen (env : ChromeEnv) : CallTrace :=
  if !env.chromeDefined then ⟨[], true, false⟩
  else if env.sidePanelAvailable && env.sidePanelOpenAvailable then
    ⟨["sidePanel.open"], true, env.vendorFails⟩
  else if env.sidebarActionAvailable && env.sidebarActionOpenAvailable then
    ⟨["sidebarAction.open"], true, env.vendorFails⟩
  else ⟨[], true, false⟩

/-- Model of `sidePanel.getOptions(options)`: the modern API when present, else
resolve `null` — with no console output and no legacy fallback. -/
def sidePanelGetOptions (env : ChromeEnv) : CallTrace × Option String :=
  if !env.chromeDefined then (⟨[], false, true⟩, none)
  else if env.sidePanelAvailable && env.sidePanelGetOptionsAvailable then
    (⟨["sidePanel.getOptions"], false, env.vendorFails⟩,
     some env.getOptionsResult)
  else (⟨[], false, false⟩, none)

/-- Counterexample to C8 as stated: with neither API available,
`sidePanel.getOptions` resolves `null` without performing any vendor
call but also without logging anything — the fallback of `getOptions`
does not log. -/
theorem sidePanelGetOptions_does_not_log :
    sidePanelGetOptions ⟨true, false, false, false, false, false, false, "o"⟩
      = (⟨[], false, false⟩, none) := by decide

/-- C8 (amended): with `chrome` defined but neither the modern
`sidePanel` API nor the legacy `sidebarAction` API available,
`setOptions` and `open` log and no-op (no vendor call, no throw), and
`getOptions` no-ops and resolves `null` without logging. -/
theorem sidePanel_fallback_spec (env : ChromeEnv) (hasPath : Bool)
    (hc : env.chromeDefined = true)
    (hsp : env.sidePanelAvailable = false)
    (hsb : env.sidebarActionAvailable = false) :
    sidePanelSetOptions env hasPath = ⟨[], true, false⟩
    ∧ sidePanelOpen env = ⟨[], true, false⟩
    ∧ sidePanelGetOptions env = (⟨[], false, false⟩, none) := by
  refine ⟨?_, ?_, ?_⟩ <;>
    simp [sidePanelSetOptions, sidePanelOpen, sidePanelGetOptions,
      hc, hsp, hsb]

/-- Witness for C8 (amended) at a concrete no-API environment. -/
theorem sidePanel_fallback_spec_witness :
    sidePanelSetOptions
        ⟨true, false, false, false, false, false, false, "o"⟩ true
      = ⟨[], true, false⟩
    ∧ sidePanelOpen ⟨true, false, false, false, false, false, false, "o"⟩
      = ⟨[], true, false⟩
    ∧ sidePanelGetOptions
        ⟨true, false, false, false, false, false, false, "o"⟩
      = (⟨[], false, false⟩, none) :=
  sidePanel_fallback_spec
    ⟨true, false, false, false, false, false, false, "o"⟩ true rfl rfl rfl

/-! ### The notifications facade (`src/utils/browser.ts` lines 112-262)

`notifications.create` first tries the extension API (whose callback
rejects on a reported last-error; the rejection is caught and the web
fallback tried), then the web `Notification` capability gated on a
permission check/request, and finally warns and resolves with the
identifier anyway. The in-memory `_webNotifications` handle mapping is
modelled by the list of identifiers it holds. -/

/-- The environment one `notifications.create` call observes. The
`chrome.notifications` object and its methods are collapsed into one
availability flag. -/
structure NotifEnv where
  /-- `typeof chrome !== "undefined" && chrome.notifications` (with its
  methods). -/
  chromeNotifAvailable : Bool
  /-- `chrome.runtime.lastError` inside the create callback. -/
  chromeCreateError : Option String
  /-- `globalThis.window !== undefined && "Notification" in globalThis`. -/
  webNotifAvailable : Bool
  /-- `Notification.permission` before any request. -/
  webPermission : String
  /-- the outcome of `Notification.requestPermission()`. -/
  requestPermissionResult : String
  /-- `Date.now()` at the call. -/
  now : Nat
deriving Repr, DecidableEq

/-- Which mechanism produced the notification. -/
inductive NotifVia where
  | chromeApi
  | webApi
  | unavailable
deriving Repr, DecidableEq

/-- One attempt of the create body under a given current permission:
the chrome branch (succeeding when no last-error is reported), then the
web branch when the checked permission is granted (the permission check
itself reports `granted` whenever `chrome.notifications` exists). A web
success records the handle under `id`. -/
def notifAttempt (env : NotifEnv) (perm : String) (id : String)
    (handles : List String) : Option (NotifVia × List String) :=
  if env.chromeNotifAvailable && env.chromeCreateError.isNone then
    some (.chromeApi, handles)
  else if env.webNotifAvailable then
    if (if env.chromeNotifAvailable then "granted" else perm) = "granted"
    then some (.webApi, id :: handles.filter (fun x => !(x == id)))
    else none
  else none

/-- Model of `notifications.create(notificationId, options?)`: a string first
argument is the identifier, otherwise `notif-` + `Date.now()` is
generated; after a failed first attempt, a `default` permission is
upgraded via `requestPermission` and the call retried once (the
re-entrant `this.create(id, opts)` with the now-granted permission);
otherwise it warns and resolves with the identifier anyway. Returns
(identifier, mechanism, updated handle mapping). -/
def notifCreate (env : NotifEnv) (arg : Option String)
    (handles : List String) : String × NotifVia × List String :=
  let id := match arg with
    | some s => s
    | none => "notif-" ++ toString env.now
  match notifAttempt env env.webPermission id handles with
  | some (v, hs) => (id, v, hs)
  | none =>
    if env.webNotifAvailable
        && ((if env.chromeNotifAvailable then "granted" else env.webPermission)
              == "default") then
      if (if env.webNotifAvailable then env.requestPermissionResult
          else "denied") == "granted" then
        match notifAttempt env env.requestPermissionResult id handles with
        | some (v, hs) => (id, v, hs)
        | none => (id, .unavailable, handles)
      else (id, .unavailable, handles)
    else (id, .unavailable, handles)

/-- C9: `create` uses a string first argument as the identifier,
otherwise generates `notif-` + timestamp; and even when the extension
API cannot succeed and the web capability grants no permission it still
resolves with that identifier (never rejects), leaving the handle
mapping untouched. -/
theorem notifCreate_spec (env : NotifEnv) (arg : Option String)
    (handles : List String) :
    (notifCreate env arg handles).1
      = (match arg with
         | some s => s
         | none => "notif-" ++ toString env.now)
    ∧ (env.chromeNotifAvailable = false → env.webNotifAvailable = false →
        notifCreate env arg handles
          = ((match arg with
              | some s => s
              | none => "notif-" ++ toString env.now),
             .unavailable, handles))
    ∧ (env.chromeNotifAvailable = false → env.webPermission = "denied" →
        notifCreate env arg handles
          = ((match arg with
              | some s => s
              | none => "notif-" ++ toString env.now),
             .unavailable, handles)) := by
  refine ⟨?_, fun h1 h2 => ?_, fun h1 h2 => ?_⟩
  · cases arg <;>
      simp only [notifCreate] <;>
      (repeat' split) <;> rfl
  · simp [notifCreate, notifAttempt, h1, h2]
  · cases hw : env.webNotifAvailable <;>
      simp [notifCreate, notifAttempt, h1, h2, hw]

/-- Witness for C9: a generated identifier at timestamp 42 with no
notification capability at all, and a caller-supplied identifier. -/
theorem notifCreate_spec_witness :
    notifCreate ⟨false, none, false, "denied", "denied", 42⟩ none []
      = ("notif-42", .unavailable, [])
    ∧ (notifCreate ⟨false, none, false, "denied", "denied", 42⟩
        (some "my-id") ["x"]).1 = "my-id" :=
  ⟨(notifCreate_spec ⟨false, none, false, "denied", "denied", 42⟩
      none []).2.1 rfl rfl,
   (notifCreate_spec ⟨false, none, false, "denied", "denied", 42⟩
      (some "my-id") ["x"]).1⟩

/-- The environment one `notifications.clear` call observes. -/
structure ClearEnv where
  /-- `typeof chrome !== "undefined" && chrome.notifications?.clear`. -/
  chromeClearAvailable : Bool
  /-- the `wasCleared` flag passed to the callback. -/
  chromeWasCleared : Bool
deriving Repr, DecidableEq

/-- Model of `notifications.clear(notificationId)`: the extension API when
present (resolving its `wasCleared` flag); else, when a web-fallback
handle is stored under the identifier, close it, delete it from the
mapping and resolve `true`; else resolve `false`. -/
def notifClear (env : ClearEnv) (handles : List String) (id : String) :
    Bool × List String :=
  if env.chromeClearAvailable then (env.chromeWasCleared, handles)
  else if handles.contains id then
    (true, handles.filter (fun x => !(x == id)))
  else (false, handles)

/-- C10: with the extension API absent, `clear(id)` resolves `true` and
removes `id` from the handle mapping when a handle for `id` exists, and
resolves `false` leaving the mapping unchanged when it does not. -/
theorem notifClear_spec (env : ClearEnv) (handles : List String)
    (id : String) (h : env.chromeClearAvailable = false) :
    (handles.contains id = true →
      (notifClear env handles id).1 = true
      ∧ (notifClear env handles id).2
          = handles.filter (fun x => !(x == id))
      ∧ id ∉ (notifClear env handles id).2)
    ∧ (handles.contains id = false →
      notifClear env handles id = (false, handles)) := by
  constructor
  · intro hm
    have hm2 : id ∈ handles := by simpa using hm
    refine ⟨?_, ?_, ?_⟩ <;> simp [notifClear, h, hm2]
  · intro hm
    have hm2 : id ∉ handles := by simpa using hm
    simp [notifClear, h, hm2]

/-- Witness for C10: clearing a stored handle resolves `true` and
removes it; clearing an unknown identifier resolves `false` and leaves
the mapping unchanged. -/
theorem notifClear_spec_witness :
    ((notifClear ⟨false, false⟩ ["a", "b"] "a").1 = true
      ∧ (notifClear ⟨false, false⟩ ["a", "b"] "a").2
          = ["a", "b"].filter (fun x => !(x == "a"))
      ∧ "a" ∉ (notifClear ⟨false, false⟩ ["a", "b"] "a").2)
    ∧ notifClear ⟨false, false⟩ ["a", "b"] "c" = (false, ["a", "b"]) :=
  ⟨(notifClear_spec ⟨false, false⟩ ["a", "b"] "a" rfl).1 (by decide),
   (notifClear_spec ⟨false, false⟩ ["a", "b"] "c" rfl).2 (by decide)⟩

end ChromeExt
